import Mathlib

/-!
Verification of the lead-landing Google-Form poller (`src/landing/main.py`).

The embedding models the watermark protocol and submission building of
`process_submissions`, the `StateManager` watermark store, the fetch result
handling of `GoogleSheetsManager.get_sheet_data`, and the chat-id guard of
`NotificationManager.send_telegram`.  External I/O (PostgreSQL insert,
Telegram API, SMTP) is modelled by per-row success oracles: the Python code
wraps each of those calls in `try/except`, so their outcome never changes
control flow, which the oracles make explicit.  Across cycles only the
state file persists: every `process_submissions` invocation constructs a
fresh `StateManager()` that reloads its dict from `state.json`, which
`runCycle` mirrors by starting each cycle from the file contents.
Strings are modelled by Lean
`String`; `str.isdigit` is modelled at the ASCII level (`Char.isDigit`),
which is exact for the inputs the claims are about (absent, empty, digits,
a leading minus sign).
-/

/-- Association-list model of a Python `dict`, restricted to the two
operations the program uses: item assignment (overwrite the existing binding
in place, or append a fresh one) and `get`. -/
def dictSet {α : Type} (d : List (String × α)) (k : String) (v : α) :
    List (String × α) :=
  match d with
  | [] => [(k, v)]
  | (k', v') :: rest => if k' = k then (k, v) :: rest else (k', v') :: dictSet rest k v

/-- `d.get(k)`: the value bound to `k`, if any. -/
def dictGet {α : Type} (d : List (String × α)) (k : String) : Option α :=
  match d with
  | [] => none
  | (k', v') :: rest => if k' = k then some v' else dictGet rest k

/-- State of the `StateManager`: the in-memory `self.state` dict and the
contents of the durable `state.json` file.  `save()` rewrites the file
wholesale from the in-memory dict. -/
structure PollState where
  mem : List (String × Nat)
  disk : List (String × Nat)
deriving DecidableEq

/-- The composite watermark key `f"{sheet_id}:{sheet_name}"`. -/
def watermarkKey (sheet_id sheet_name : String) : String :=
  sheet_id ++ ":" ++ sheet_name

/-- `StateManager.get_last_row`: `self.state.get(key, 1)`. -/
def get_last_row (st : PollState) (sheet_id sheet_name : String) : Nat :=
  (dictGet st.mem (watermarkKey sheet_id sheet_name)).getD 1

/-- `StateManager.set_last_row`: set the in-memory binding, then `save()`.
`saveOk` tells whether the durable write succeeded; on failure the exception
is caught and logged, leaving the file as it was. -/
def set_last_row (st : PollState) (sheet_id sheet_name : String) (row : Nat)
    (saveOk : Bool) : PollState :=
  let mem' := dictSet st.mem (watermarkKey sheet_id sheet_name) row
  { mem := mem', disk := if saveOk then mem' else st.disk }

/-- `StateManager.__init__` / `load()`: a fresh `StateManager()` reads its
dict from the state file.  Every `process_submissions` invocation constructs
one (main.py line 375), so each cycle starts with `mem` equal to the file
contents, and only the file survives from one cycle to the next. -/
def loadState (disk : List (String × Nat)) : PollState :=
  { mem := disk, disk := disk }

/-- The watermark a freshly constructed `StateManager` (hence the next
cycle, or the process after a restart) reads for a key from the given
state-file contents. -/
def storedWatermark (disk : List (String × Nat))
    (sheet_id sheet_name : String) : Nat :=
  get_last_row (loadState disk) sheet_id sheet_name

/-- A submission: the dict built for one data row. -/
abbrev Submission := List (String × String)

/-- The loop `for j, header in enumerate(headers): submission[header] =
row[j] if j < len(row) else ''`, with `sub` the dict built so far and `j`
the index of the first header still to process. -/
def buildSubAux (row : List String) (j : Nat) (headers : List String)
    (sub : Submission) : Submission :=
  match headers with
  | [] => sub
  | h :: rest => buildSubAux row (j + 1) rest (dictSet sub h (row.getD j ""))

/-- Build a submission by zipping the header row against one data row;
missing trailing cells become `""`, extra cells are ignored. -/
def buildSubmission (headers row : List String) : Submission :=
  buildSubAux row 0 headers []

/-- One observable side effect of a poll cycle, with the outcome the
external collaborator reported (`true` = success).  The Python code catches
every per-call exception, so the outcome is recorded but never consulted. -/
inductive Event where
  | sinkAppend (sub : Submission) (ok : Bool)
  | telegramNotify (sub : Submission) (ok : Bool)
  | emailNotify (sub : Submission) (ok : Bool)
deriving DecidableEq

/-- The per-row loop of `process_submissions`: for each new row (indexed
from 1, as `enumerate(new_rows, 1)`), build the submission, then attempt
`db.save_lead`, `notifier.send_telegram`, `notifier.send_email` in that
order.  Each attempt's success is read off the corresponding oracle. -/
def processRows (headers : List String) (i : Nat) (rows : List (List String))
    (sinkOk tgOk emailOk : Nat → Bool) : List Event :=
  match rows with
  | [] => []
  | row :: rest =>
      let sub := buildSubmission headers row
      Event.sinkAppend sub (sinkOk i) :: Event.telegramNotify sub (tgOk i)
        :: Event.emailNotify sub (emailOk i)
        :: processRows headers (i + 1) rest sinkOk tgOk emailOk

/-- Outcome of the Google Sheets values().get() call. -/
inductive FetchResult where
  | ok (values : List (List String))
  | httpError (status : Nat)
  | otherError
deriving DecidableEq

/-- `GoogleSheetsManager.get_sheet_data`: `None` when the sheet id is unset
or on any `HttpError` (403, 404, other) or other exception; otherwise the
fetched `values` (possibly `[]`). -/
def get_sheet_data (sheet_id : String) (r : FetchResult) :
    Option (List (List String)) :=
  if sheet_id = "" then none
  else
    match r with
    | FetchResult.ok values => some values
    | FetchResult.httpError _ => none
    | FetchResult.otherError => none

/-- One invocation of `process_submissions`, given the fetched data
(`none` models a failed fetch, mirroring `if not data: return` together
with the empty-list case), the per-row outcome oracles, and whether the
final watermark `save()` succeeds.  Returns the new state and the list of
side effects in order. -/
def process_submissions (sheet_id sheet_name : String)
    (fetched : Option (List (List String)))
    (sinkOk tgOk emailOk : Nat → Bool) (saveOk : Bool)
    (st : PollState) : PollState × List Event :=
  match fetched with
  | none => (st, [])
  | some data =>
      if data.isEmpty then (st, [])
      else
        let last_row := get_last_row st sheet_id sheet_name
        if data.length ≤ last_row then (st, [])
        else
          let headers := data.headD []
          let new_rows := data.drop last_row
          let events := processRows headers 1 new_rows sinkOk tgOk emailOk
          (set_last_row st sheet_id sheet_name data.length saveOk, events)

/-- Everything that varies between two poll cycles: the ambient sheet
configuration, the fetch outcome, and the collaborator outcomes. -/
structure CycleInput where
  sheet_id : String
  sheet_name : String
  fetched : Option (List (List String))
  sinkOk : Nat → Bool
  tgOk : Nat → Bool
  emailOk : Nat → Bool
  saveOk : Bool

/-- One scheduled cycle, from state-file contents to state-file contents:
`process_submissions` constructs a fresh `StateManager()` (reloading the
dict from `state.json`, main.py line 375), so the file is the only state
that persists between cycles. -/
def runCycle (inp : CycleInput) (disk : List (String × Nat)) :
    List (String × Nat) :=
  ((process_submissions inp.sheet_id inp.sheet_name inp.fetched inp.sinkOk
    inp.tgOk inp.emailOk inp.saveOk (loadState disk)).1).disk

/-- The state-file contents after a sequence of scheduled cycles. -/
def runCycles (inps : List CycleInput) (disk : List (String × Nat)) :
    List (String × Nat) :=
  match inps with
  | [] => disk
  | inp :: rest => runCycles rest (runCycle inp disk)

/-- The submissions handed to `db.save_lead`, in order. -/
def appendedSubs (evs : List Event) : List Submission :=
  evs.filterMap fun e =>
    match e with
    | Event.sinkAppend s _ => some s
    | _ => none

/-- The submissions handed to `notifier.send_telegram`, in order. -/
def telegramSubs (evs : List Event) : List Submission :=
  evs.filterMap fun e =>
    match e with
    | Event.telegramNotify s _ => some s
    | _ => none

/-- The submissions handed to `notifier.send_email`, in order. -/
def emailSubs (evs : List Event) : List Submission :=
  evs.filterMap fun e =>
    match e with
    | Event.emailNotify s _ => some s
    | _ => none

/-- Python `str.isdigit`, at the ASCII level: nonempty and all characters
decimal digits. -/
def str_isdigit (s : String) : Bool :=
  !s.isEmpty && s.data.all Char.isDigit

/-- `NotificationManager.send_telegram`: no-op unless the bot was
initialised; then re-read the chat id and return without sending unless it
is truthy and `isdigit()`; otherwise attempt the send.  `some (c, msg)`
records an attempted dispatch with chat id `c`. -/
def send_telegram (botInitialized : Bool) (chat_id : Option String)
    (message : String) : Option (String × String) :=
  if !botInitialized then none
  else
    match chat_id with
    | none => none
    | some c => if !c.isEmpty && str_isdigit c then some (c, message) else none

/-- Sample row set used for concrete witness instances: a header and two
data rows. -/
def sampleData : List (List String) :=
  [["Time", "Name"], ["t1", "Alice"], ["t2", "Bob"]]

/-- The state of a process whose state file was absent: both dicts empty. -/
def emptyState : PollState := PollState.mk [] []

/-- A state whose watermark for `"sheet1:Form Responses 1"` is already 5. -/
def aheadState : PollState :=
  PollState.mk [("sheet1:Form Responses 1", 5)] [("sheet1:Form Responses 1", 5)]

/-- A sample cycle over `sampleData` with all collaborators succeeding. -/
def sampleInput : CycleInput :=
  CycleInput.mk "sheet1" "Form Responses 1" (some sampleData)
    (fun _ => true) (fun _ => true) (fun _ => true) true

-- ### Dict lemmas

theorem dictGet_dictSet_self {α : Type} (d : List (String × α)) (k : String)
    (v : α) : dictGet (dictSet d k v) k = some v := by
  induction d with
  | nil => simp [dictSet, dictGet]
  | cons p rest ih =>
      obtain ⟨k', v'⟩ := p
      by_cases h : k' = k
      · simp [dictSet, dictGet, h]
      · simp [dictSet, dictGet, h, ih]

theorem dictGet_dictSet_ne {α : Type} (d : List (String × α)) (k k' : String)
    (v : α) (hne : k' ≠ k) : dictGet (dictSet d k v) k' = dictGet d k' := by
  have hne' : ¬(k = k') := fun h => hne h.symm
  induction d with
  | nil => simp [dictSet, dictGet, hne']
  | cons p rest ih =>
      obtain ⟨k₀, v₀⟩ := p
      by_cases h : k₀ = k
      · subst h
        simp [dictSet, dictGet, hne, hne']
      · by_cases h' : k₀ = k'
        · simp [dictSet, dictGet, h, h', hne]
        · simp [dictSet, dictGet, h, h', ih]

theorem dictGet_dictSet_isSome {α : Type} (d : List (String × α))
    (k k' : String) (v : α) :
    (dictGet (dictSet d k v) k').isSome = (k' = k || (dictGet d k').isSome) := by
  by_cases h : k' = k
  · subst h
    simp [dictGet_dictSet_self]
  · simp [dictGet_dictSet_ne d k k' v h, h]

-- ### Submission-building lemmas

theorem getD_mem_exists {α : Type} (a : α) (l : List α) (d : α) (h : a ∈ l) :
    ∃ n, n < l.length ∧ l.getD n d = a := by
  induction l with
  | nil => cases h
  | cons b tl ih =>
      rcases List.mem_cons.mp h with h1 | h2
      · exact ⟨0, Nat.succ_pos _, h1.symm⟩
      · obtain ⟨n, hn, hg⟩ := ih h2
        exact ⟨n + 1, Nat.succ_lt_succ hn, hg⟩

theorem buildSubAux_get_of_not_mem (row : List String) (name : String) :
    ∀ (headers : List String) (j : Nat) (sub : Submission), name ∉ headers →
    dictGet (buildSubAux row j headers sub) name = dictGet sub name := by
  intro headers
  induction headers with
  | nil => intro j sub _; rfl
  | cons hd tl ih =>
      intro j sub h
      have h1 : name ≠ hd := fun e => h (e ▸ List.mem_cons_self hd tl)
      have h2 : name ∉ tl := fun e => h (List.mem_cons_of_mem hd e)
      rw [buildSubAux, ih (j + 1) _ h2, dictGet_dictSet_ne _ _ _ _ h1]

/-- Looking up a column name in the built submission yields the cell of its
LAST occurrence in the header (a later duplicate overwrites an earlier one). -/
theorem buildSubAux_get_last (row : List String) :
    ∀ (headers : List String) (j : Nat) (sub : Submission) (p : Nat),
    p < headers.length →
    (∀ q, p < q → q < headers.length → headers.getD q "" ≠ headers.getD p "") →
    dictGet (buildSubAux row j headers sub) (headers.getD p "") =
      some (row.getD (j + p) "") := by
  intro headers
  induction headers with
  | nil => intro j sub p hp _; exact absurd hp (Nat.not_lt_zero p)
  | cons hd tl ih =>
      intro j sub p hp hlast
      cases p with
      | zero =>
          have hmem : hd ∉ tl := by
            intro hmem
            obtain ⟨n, hn, hg⟩ := getD_mem_exists hd tl "" hmem
            exact hlast (n + 1) (Nat.succ_pos n) (Nat.succ_lt_succ hn)
              (by rw [List.getD_cons_succ, List.getD_cons_zero]; exact hg)
          rw [List.getD_cons_zero, buildSubAux,
            buildSubAux_get_of_not_mem row hd tl (j + 1) _ hmem,
            dictGet_dictSet_self, Nat.add_zero]
      | succ p' =>
          rw [List.getD_cons_succ, buildSubAux]
          have hlast' : ∀ q, p' < q → q < tl.length →
              tl.getD q "" ≠ tl.getD p' "" := by
            intro q hq hq2 he
            exact hlast (q + 1) (Nat.succ_lt_succ hq) (Nat.succ_lt_succ hq2)
              (by rw [List.getD_cons_succ, List.getD_cons_succ]; exact he)
          have hrec := ih (j + 1) (dictSet sub hd (row.getD j ""))
            p' (Nat.lt_of_succ_lt_succ hp) hlast'
          have harith : j + 1 + p' = j + (p' + 1) := by omega
          rw [hrec, harith]

/-- The built submission has a binding for a name iff the name occurs in the
header (or was already bound in the accumulator). -/
theorem buildSubAux_hasKey (row : List String) (name : String) :
    ∀ (headers : List String) (j : Nat) (sub : Submission),
    ((dictGet (buildSubAux row j headers sub) name).isSome = true ↔
      name ∈ headers ∨ (dictGet sub name).isSome = true) := by
  intro headers
  induction headers with
  | nil => intro j sub; simp [buildSubAux]
  | cons hd tl ih =>
      intro j sub
      rw [buildSubAux, ih (j + 1)]
      rw [dictGet_dictSet_isSome]
      constructor
      · intro h
        rcases h with h | h
        · exact Or.inl (List.mem_cons_of_mem hd h)
        · rcases Bool.or_eq_true_iff.mp h with h | h
          · exact Or.inl (by simp at h; exact h ▸ List.mem_cons_self hd tl)
          · exact Or.inr h
      · intro h
        rcases h with h | h
        · rcases List.mem_cons.mp h with h | h
          · exact Or.inr (by simp [h])
          · exact Or.inl h
        · exact Or.inr (by simp [h])

/-- Every value bound in the built submission comes from a cell whose index
is below the header length (or from the accumulator). -/
theorem buildSubAux_get_origin (row : List String) (name v : String) :
    ∀ (headers : List String) (j : Nat) (sub : Submission),
    dictGet (buildSubAux row j headers sub) name = some v →
    (∃ p, p < headers.length ∧ headers.getD p "" = name ∧
        row.getD (j + p) "" = v) ∨
      dictGet sub name = some v := by
  intro headers
  induction headers with
  | nil => intro j sub h; exact Or.inr h
  | cons hd tl ih =>
      intro j sub h
      rw [buildSubAux] at h
      rcases ih (j + 1) _ h with ⟨p, hp, hname, hv⟩ | hrest
      · refine Or.inl ⟨p + 1, Nat.succ_lt_succ hp, ?_, ?_⟩
        · rw [List.getD_cons_succ]; exact hname
        · rw [Nat.add_succ]; rw [Nat.succ_add] at hv; exact hv
      · by_cases he : name = hd
        · subst he
          rw [dictGet_dictSet_self] at hrest
          exact Or.inl ⟨0, Nat.succ_pos _, List.getD_cons_zero,
            by rw [Nat.add_zero]; exact Option.some.inj hrest⟩
        · rw [dictGet_dictSet_ne _ _ _ _ he] at hrest
          exact Or.inr hrest

-- ### Per-row loop lemmas

theorem appendedSubs_processRows (headers : List String) :
    ∀ (rows : List (List String)) (i : Nat) (o1 o2 o3 : Nat → Bool),
    appendedSubs (processRows headers i rows o1 o2 o3) =
      rows.map (buildSubmission headers) := by
  intro rows
  induction rows with
  | nil => intro i o1 o2 o3; rfl
  | cons row rest ih =>
      intro i o1 o2 o3
      simp only [processRows, appendedSubs, List.filterMap_cons, List.map_cons]
      rw [← appendedSubs, ih (i + 1) o1 o2 o3]

theorem telegramSubs_processRows (headers : List String) :
    ∀ (rows : List (List String)) (i : Nat) (o1 o2 o3 : Nat → Bool),
    telegramSubs (processRows headers i rows o1 o2 o3) =
      rows.map (buildSubmission headers) := by
  intro rows
  induction rows with
  | nil => intro i o1 o2 o3; rfl
  | cons row rest ih =>
      intro i o1 o2 o3
      simp only [processRows, telegramSubs, List.filterMap_cons, List.map_cons]
      rw [← telegramSubs, ih (i + 1) o1 o2 o3]

theorem emailSubs_processRows (headers : List String) :
    ∀ (rows : List (List String)) (i : Nat) (o1 o2 o3 : Nat → Bool),
    emailSubs (processRows headers i rows o1 o2 o3) =
      rows.map (buildSubmission headers) := by
  intro rows
  induction rows with
  | nil => intro i o1 o2 o3; rfl
  | cons row rest ih =>
      intro i o1 o2 o3
      simp only [processRows, emailSubs, List.filterMap_cons, List.map_cons]
      rw [← emailSubs, ih (i + 1) o1 o2 o3]

-- ### Poll cycle helper lemmas

theorem process_submissions_no_new (sheet_id sheet_name : String)
    (data : List (List String)) (o1 o2 o3 : Nat → Bool) (saveOk : Bool)
    (st : PollState) (h : data.length ≤ get_last_row st sheet_id sheet_name) :
    process_submissions sheet_id sheet_name (some data) o1 o2 o3 saveOk st =
      (st, []) := by
  unfold process_submissions
  by_cases hd : data.isEmpty
  · simp [hd]
  · simp [hd, h]

theorem process_submissions_new (sheet_id sheet_name : String)
    (data : List (List String)) (o1 o2 o3 : Nat → Bool) (saveOk : Bool)
    (st : PollState) (h : get_last_row st sheet_id sheet_name < data.length) :
    process_submissions sheet_id sheet_name (some data) o1 o2 o3 saveOk st =
      (set_last_row st sheet_id sheet_name data.length saveOk,
        processRows (data.headD []) 1
          (data.drop (get_last_row st sheet_id sheet_name)) o1 o2 o3) := by
  have hne : data.isEmpty = false := by
    cases data with
    | nil => exact absurd h (Nat.not_lt_zero _)
    | cons a l => rfl
  unfold process_submissions
  simp [hne, Nat.not_le.mpr h]

theorem get_last_row_set_self (st : PollState) (sheet_id sheet_name : String)
    (n : Nat) (saveOk : Bool) :
    get_last_row (set_last_row st sheet_id sheet_name n saveOk)
      sheet_id sheet_name = n := by
  simp [get_last_row, set_last_row, dictGet_dictSet_self]

theorem getD_mem {α : Type} (l : List α) (n : Nat) (d : α) (h : n < l.length) :
    l.getD n d ∈ l := by
  induction l generalizing n with
  | nil => exact absurd h (Nat.not_lt_zero n)
  | cons a tl ih =>
      cases n with
      | zero => rw [List.getD_cons_zero]; exact List.mem_cons_self a tl
      | succ n' =>
          rw [List.getD_cons_succ]
          exact List.mem_cons_of_mem a (ih n' (Nat.lt_of_succ_lt_succ h))

/-- In a duplicate-free list, entries at distinct valid positions differ. -/
theorem nodup_getD_ne {α : Type} (l : List α) (d : α) (hnd : l.Nodup) :
    ∀ p q, p < q → q < l.length → l.getD q d ≠ l.getD p d := by
  induction l with
  | nil => intro p q _ hq; exact absurd hq (Nat.not_lt_zero q)
  | cons a tl ih =>
      intro p q hpq hq
      rcases List.nodup_cons.mp hnd with ⟨ha, htl⟩
      cases p with
      | zero =>
          cases q with
          | zero => exact absurd hpq (Nat.lt_irrefl 0)
          | succ q' =>
              rw [List.getD_cons_zero, List.getD_cons_succ]
              intro he
              exact ha (he ▸ getD_mem tl q' d (Nat.lt_of_succ_lt_succ hq))
      | succ p' =>
          cases q with
          | zero => exact absurd hpq (Nat.not_lt_zero _)
          | succ q' =>
              rw [List.getD_cons_succ, List.getD_cons_succ]
              exact ih htl p' q' (Nat.lt_of_succ_lt_succ hpq)
                (Nat.lt_of_succ_lt_succ hq)

theorem get_last_row_set_other (st : PollState)
    (sid1 sname1 sid2 sname2 : String) (n : Nat) (saveOk : Bool)
    (hk : watermarkKey sid2 sname2 ≠ watermarkKey sid1 sname1) :
    get_last_row (set_last_row st sid1 sname1 n saveOk) sid2 sname2 =
      get_last_row st sid2 sname2 := by
  simp [get_last_row, set_last_row, dictGet_dictSet_ne _ _ _ _ hk]

theorem storedWatermark_le_runCycle (inp : CycleInput)
    (disk : List (String × Nat)) (sheet_id sheet_name : String) :
    storedWatermark disk sheet_id sheet_name ≤
      storedWatermark (runCycle inp disk) sheet_id sheet_name := by
  obtain ⟨sid, sname, fetched, o1, o2, o3, sOk⟩ := inp
  unfold runCycle
  cases fetched with
  | none => exact Nat.le_refl _
  | some data =>
      by_cases hle : data.length ≤ get_last_row (loadState disk) sid sname
      · rw [process_submissions_no_new sid sname data o1 o2 o3 sOk _ hle]
        exact Nat.le_refl _
      · have hlt := Nat.not_le.mp hle
        rw [process_submissions_new sid sname data o1 o2 o3 sOk _ hlt]
        cases sOk with
        | false => exact Nat.le_refl _
        | true =>
            by_cases hk : watermarkKey sheet_id sheet_name =
                watermarkKey sid sname
            · have hnew : storedWatermark
                  (set_last_row (loadState disk) sid sname
                    data.length true).disk sheet_id sheet_name =
                  data.length := by
                simp [storedWatermark, get_last_row, loadState, set_last_row,
                  hk, dictGet_dictSet_self]
              have hsame : storedWatermark disk sheet_id sheet_name =
                  get_last_row (loadState disk) sid sname := by
                simp [storedWatermark, get_last_row, loadState, hk]
              rw [hnew, hsame]
              exact Nat.le_of_lt hlt
            · have heq : storedWatermark
                  (set_last_row (loadState disk) sid sname
                    data.length true).disk sheet_id sheet_name =
                  storedWatermark disk sheet_id sheet_name := by
                simp [storedWatermark, get_last_row, loadState, set_last_row,
                  dictGet_dictSet_ne _ _ _ _ hk]
              rw [heq]

theorem storedWatermark_le_runCycles (inps : List CycleInput) :
    ∀ (disk : List (String × Nat)) (sheet_id sheet_name : String),
    storedWatermark disk sheet_id sheet_name ≤
      storedWatermark (runCycles inps disk) sheet_id sheet_name := by
  induction inps with
  | nil => intro disk sid sname; exact Nat.le_refl _
  | cons inp rest ih =>
      intro disk sid sname
      exact Nat.le_trans (storedWatermark_le_runCycle inp disk sid sname)
        (ih (runCycle inp disk) sid sname)

theorem getD_len_le {α : Type} (l : List α) (n : Nat) (d : α)
    (h : l.length ≤ n) : l.getD n d = d := by
  induction l generalizing n with
  | nil => rfl
  | cons a tl ih =>
      cases n with
      | zero => exact absurd h (by simp)
      | succ n' => rw [List.getD_cons_succ]; exact ih n' (Nat.le_of_succ_le_succ h)

-- ### Claim theorems

/-- C1: when the fetched row set `R` has more rows than the stored watermark
`W`, one poll cycle builds exactly `len(R) - W` submissions, one per row of
`R[W:]` in order, each built by zipping the header `R[0]` against its own
row, and hands each of them to the lead sink and to both notifier channels;
afterwards the stored watermark for the configured key equals `len(R)`,
whatever the per-row sink/notifier outcomes and even when the final durable
save fails. -/
theorem C1_new_rows_full_cycle (sheet_id sheet_name : String)
    (data : List (List String)) (o1 o2 o3 : Nat → Bool) (saveOk : Bool)
    (st : PollState)
    (h : get_last_row st sheet_id sheet_name < data.length) :
    appendedSubs
        (process_submissions sheet_id sheet_name (some data)
          o1 o2 o3 saveOk st).2 =
      (data.drop (get_last_row st sheet_id sheet_name)).map
        (buildSubmission (data.headD [])) ∧
    telegramSubs
        (process_submissions sheet_id sheet_name (some data)
          o1 o2 o3 saveOk st).2 =
      (data.drop (get_last_row st sheet_id sheet_name)).map
        (buildSubmission (data.headD [])) ∧
    emailSubs
        (process_submissions sheet_id sheet_name (some data)
          o1 o2 o3 saveOk st).2 =
      (data.drop (get_last_row st sheet_id sheet_name)).map
        (buildSubmission (data.headD [])) ∧
    (appendedSubs
        (process_submissions sheet_id sheet_name (some data)
          o1 o2 o3 saveOk st).2).length =
      data.length - get_last_row st sheet_id sheet_name ∧
    get_last_row
        (process_submissions sheet_id sheet_name (some data)
          o1 o2 o3 saveOk st).1 sheet_id sheet_name = data.length := by
  rw [process_submissions_new sheet_id sheet_name data o1 o2 o3 saveOk st h]
  refine ⟨appendedSubs_processRows _ _ _ _ _ _,
    telegramSubs_processRows _ _ _ _ _ _,
    emailSubs_processRows _ _ _ _ _ _, ?_,
    get_last_row_set_self _ _ _ _ _⟩
  rw [appendedSubs_processRows, List.length_map, List.length_drop]

theorem C1_witness :
    appendedSubs
        (process_submissions "sheet1" "Form Responses 1" (some sampleData)
          (fun _ => false) (fun _ => false) (fun _ => false) false
          emptyState).2 =
      (sampleData.drop (get_last_row emptyState "sheet1" "Form Responses 1")).map
        (buildSubmission (sampleData.headD [])) ∧
    telegramSubs
        (process_submissions "sheet1" "Form Responses 1" (some sampleData)
          (fun _ => false) (fun _ => false) (fun _ => false) false
          emptyState).2 =
      (sampleData.drop (get_last_row emptyState "sheet1" "Form Responses 1")).map
        (buildSubmission (sampleData.headD [])) ∧
    emailSubs
        (process_submissions "sheet1" "Form Responses 1" (some sampleData)
          (fun _ => false) (fun _ => false) (fun _ => false) false
          emptyState).2 =
      (sampleData.drop (get_last_row emptyState "sheet1" "Form Responses 1")).map
        (buildSubmission (sampleData.headD [])) ∧
    (appendedSubs
        (process_submissions "sheet1" "Form Responses 1" (some sampleData)
          (fun _ => false) (fun _ => false) (fun _ => false) false
          emptyState).2).length =
      sampleData.length - get_last_row emptyState "sheet1" "Form Responses 1" ∧
    get_last_row
        (process_submissions "sheet1" "Form Responses 1" (some sampleData)
          (fun _ => false) (fun _ => false) (fun _ => false) false
          emptyState).1 "sheet1" "Form Responses 1" = sampleData.length :=
  C1_new_rows_full_cycle "sheet1" "Form Responses 1" sampleData
    (fun _ => false) (fun _ => false) (fun _ => false) false emptyState
    (by decide)

/-- C2: when the fetched row set has no more rows than the stored watermark,
one poll cycle performs no sink append and no notifier dispatch on any
channel and returns the state (both the in-memory dict and the state file,
hence every key's watermark) unchanged. -/
theorem C2_no_new_rows_cycle (sheet_id sheet_name : String)
    (data : List (List String)) (o1 o2 o3 : Nat → Bool) (saveOk : Bool)
    (st : PollState)
    (h : data.length ≤ get_last_row st sheet_id sheet_name) :
    process_submissions sheet_id sheet_name (some data) o1 o2 o3 saveOk st =
      (st, []) :=
  process_submissions_no_new sheet_id sheet_name data o1 o2 o3 saveOk st h

theorem C2_witness :
    process_submissions "sheet1" "Form Responses 1" (some sampleData)
        (fun _ => true) (fun _ => true) (fun _ => true) true aheadState =
      (aheadState, []) :=
  C2_no_new_rows_cycle "sheet1" "Form Responses 1" sampleData
    (fun _ => true) (fun _ => true) (fun _ => true) true aheadState
    (by decide)

/-- C3 as stated is false when the header repeats a column name: with header
`["A", "A"]` and row `["x"]` (shorter than the header), the claim requires
the submission to map `H[0] = "A"` to `r[0] = "x"`, but the dict built by
the loop binds `"A"` to the empty string, because the second (out-of-range)
occurrence overwrites the first. -/
theorem C3_counterexample :
    (["x"] : List String).length < (["A", "A"] : List String).length ∧
    dictGet (buildSubmission ["A", "A"] ["x"]) "A" = some "" ∧
    some ("" : String) ≠ some "x" := by decide

/-- C3 (amended): for a header of pairwise-distinct column names and a data
row shorter than the header, the submission maps each column name `H[j]`
with `j < len(r)` to `r[j]` and each column name `H[j]` with `j >= len(r)`
to the empty string. -/
theorem C3_short_row_pads_empty (headers row : List String)
    (hnodup : headers.Nodup) (hlen : row.length < headers.length)
    (j : Nat) (hj : j < headers.length) :
    dictGet (buildSubmission headers row) (headers.getD j "") =
      some (if j < row.length then row.getD j "" else "") := by
  have hmain := buildSubAux_get_last row headers 0 [] j hj
    (fun q hq hq2 => nodup_getD_ne headers "" hnodup j q hq hq2)
  rw [buildSubmission, hmain, Nat.zero_add]
  by_cases hr : j < row.length
  · rw [if_pos hr]
  · rw [if_neg hr, getD_len_le row j "" (Nat.le_of_not_lt hr)]

theorem C3_witness :
    dictGet (buildSubmission ["A", "B", "C"] ["x", "y"])
        ((["A", "B", "C"] : List String).getD 2 "") =
      some (if 2 < (["x", "y"] : List String).length then
        (["x", "y"] : List String).getD 2 "" else "") :=
  C3_short_row_pads_empty ["A", "B", "C"] ["x", "y"]
    (by decide) (by decide) 2 (by decide)

/-- C4: idempotence on an unchanged source.  After a first cycle over row
set `R` that found new rows and durably saved the advanced watermark, a
second cycle over the same `R` performs zero sink appends and zero notifier
dispatches (and leaves the state as the first cycle left it), whatever its
own collaborator outcomes. -/
theorem C4_idempotent_cycle (sheet_id sheet_name : String)
    (data : List (List String)) (o1 o2 o3 o1' o2' o3' : Nat → Bool)
    (saveOk' : Bool) (st : PollState)
    (h : get_last_row st sheet_id sheet_name < data.length) :
    process_submissions sheet_id sheet_name (some data) o1' o2' o3' saveOk'
        (process_submissions sheet_id sheet_name (some data)
          o1 o2 o3 true st).1 =
      ((process_submissions sheet_id sheet_name (some data)
          o1 o2 o3 true st).1, []) := by
  rw [process_submissions_new sheet_id sheet_name data o1 o2 o3 true st h]
  apply process_submissions_no_new
  rw [get_last_row_set_self]

theorem C4_witness :
    process_submissions "sheet1" "Form Responses 1" (some sampleData)
        (fun _ => false) (fun _ => false) (fun _ => false) true
        (process_submissions "sheet1" "Form Responses 1" (some sampleData)
          (fun _ => true) (fun _ => true) (fun _ => true) true emptyState).1 =
      ((process_submissions "sheet1" "Form Responses 1" (some sampleData)
          (fun _ => true) (fun _ => true) (fun _ => true) true emptyState).1,
        []) :=
  C4_idempotent_cycle "sheet1" "Form Responses 1" sampleData
    (fun _ => true) (fun _ => true) (fun _ => true)
    (fun _ => false) (fun _ => false) (fun _ => false) true emptyState
    (by decide)

/-- C5: key isolation of the watermark store.  Setting the watermark for one
composite key leaves the value `get_last_row` reports for any other
composite key unchanged, whether or not the durable write succeeded. -/
theorem C5_key_isolation (sid1 sname1 sid2 sname2 : String) (n : Nat)
    (saveOk : Bool) (st : PollState)
    (h : watermarkKey sid1 sname1 ≠ watermarkKey sid2 sname2) :
    get_last_row (set_last_row st sid1 sname1 n saveOk) sid2 sname2 =
      get_last_row st sid2 sname2 :=
  get_last_row_set_other st sid1 sname1 sid2 sname2 n saveOk (Ne.symm h)

theorem C5_witness :
    get_last_row
        (set_last_row aheadState "sheet1" "Form Responses 1" 9 true)
        "sheet2" "Form Responses 1" =
      get_last_row aheadState "sheet2" "Form Responses 1" :=
  C5_key_isolation "sheet1" "Form Responses 1" "sheet2" "Form Responses 1"
    9 true aheadState (by decide)

/-- C6: the watermark defaults to 1 for a key never recorded in the state
file, and across any sequence of poll cycles — each constructing a fresh
`StateManager` from the state file, whatever it fetched and however its
collaborators and saves fared — the stored watermark a key reports never
decreases: a cycle only writes `len(R)`, only when `len(R)` exceeds the
watermark it read, and a failed save leaves the file unchanged. -/
theorem C6_watermark_invariant (disk : List (String × Nat))
    (sheet_id sheet_name : String) (inps : List CycleInput) :
    (dictGet disk (watermarkKey sheet_id sheet_name) = none →
      storedWatermark disk sheet_id sheet_name = 1) ∧
    storedWatermark disk sheet_id sheet_name ≤
      storedWatermark (runCycles inps disk) sheet_id sheet_name := by
  constructor
  · intro h; rw [storedWatermark, get_last_row, loadState, h]; rfl
  · exact storedWatermark_le_runCycles inps disk sheet_id sheet_name

theorem C6_witness :
    storedWatermark [] "sheet1" "Form Responses 1" = 1 ∧
    storedWatermark [] "sheet1" "Form Responses 1" ≤
      storedWatermark (runCycles [sampleInput] [])
        "sheet1" "Form Responses 1" :=
  ⟨(C6_watermark_invariant [] "sheet1" "Form Responses 1"
      [sampleInput]).1 (by decide),
    (C6_watermark_invariant [] "sheet1" "Form Responses 1"
      [sampleInput]).2⟩

/-- C7 fails as stated: a failed persist does NOT affect only behaviour
after restart.  Each `process_submissions` invocation constructs a fresh
`StateManager()` (main.py line 375) that reloads from `state.json`, so the
next `get_last_row(key)` of the same running process reads the old disk
value, not the in-memory `n` of the discarded instance.  Concretely: with
the file holding 5 for the key, after `set_last_row(key, 9)` whose durable
write fails, the next cycle of the same process observes 5, not 9. -/
theorem C7_counterexample :
    storedWatermark
        (set_last_row aheadState "sheet1" "Form Responses 1" 9 false).disk
        "sheet1" "Form Responses 1" = 5 ∧
    (5 : Nat) ≠ 9 := by decide

/-- C7 (amended): after a `set_last_row` whose durable write failed, the
in-memory value `n` is what every subsequent `get_last_row` on the SAME
`StateManager` instance (i.e. within the same poll-cycle invocation)
observes, while the state file keeps its old contents; because each later
cycle of the running process — like a restarted process — constructs a
fresh `StateManager` from the file, it reads the old watermark and may
reprocess the same rows. -/
theorem C7_failed_persist_scope (st : PollState)
    (sheet_id sheet_name : String) (n : Nat) :
    get_last_row (set_last_row st sheet_id sheet_name n false)
        sheet_id sheet_name = n ∧
    (set_last_row st sheet_id sheet_name n false).disk = st.disk ∧
    storedWatermark (set_last_row st sheet_id sheet_name n false).disk
        sheet_id sheet_name =
      storedWatermark st.disk sheet_id sheet_name :=
  ⟨get_last_row_set_self st sheet_id sheet_name n false, rfl, rfl⟩

/-- C8: when the fetch fails (HTTP 403/404, any other error, unset sheet id)
or returns an empty row set, the cycle performs no sink append, no notifier
dispatch and no watermark write: the state is returned exactly as it was. -/
theorem C8_fetch_failure_atomic (sheet_id sheet_name : String)
    (r : FetchResult) (o1 o2 o3 : Nat → Bool) (saveOk : Bool) (st : PollState)
    (h : ∀ values, r = FetchResult.ok values → values = []) :
    process_submissions sheet_id sheet_name (get_sheet_data sheet_id r)
      o1 o2 o3 saveOk st = (st, []) := by
  cases r with
  | ok values =>
      have hv := h values rfl
      subst hv
      by_cases hid : sheet_id = "" <;>
        simp [get_sheet_data, hid, process_submissions]
  | httpError s =>
      by_cases hid : sheet_id = "" <;>
        simp [get_sheet_data, hid, process_submissions]
  | otherError =>
      by_cases hid : sheet_id = "" <;>
        simp [get_sheet_data, hid, process_submissions]

theorem C8_witness :
    process_submissions "sheet1" "Form Responses 1"
        (get_sheet_data "sheet1" (FetchResult.httpError 403))
        (fun _ => true) (fun _ => true) (fun _ => true) true aheadState =
      (aheadState, []) :=
  C8_fetch_failure_atomic "sheet1" "Form Responses 1"
    (FetchResult.httpError 403) (fun _ => true) (fun _ => true)
    (fun _ => true) true aheadState (fun values hv => nomatch hv)

/-- The explicit truthiness test `not chat_id` in the code is subsumed by
`isdigit`, which is already false on the empty string. -/
theorem guard_eq_isdigit (c : String) :
    (!c.isEmpty && str_isdigit c) = str_isdigit c := by
  rw [str_isdigit]
  cases h : c.isEmpty <;> simp [h]

/-- C9: `send_telegram` attempts a dispatch exactly when the bot is
initialised and the configured chat id is present and consists solely of
digits; in particular a chat id with any non-digit character (such as the
leading minus sign of a Telegram group id), an empty chat id, or an absent
one produces no dispatch and no error even with the bot configured. -/
theorem C9_telegram_chat_id_guard (bot : Bool) (chat_id : Option String)
    (message : String) :
    ((send_telegram bot chat_id message).isSome = true ↔
      (bot = true ∧ ∃ c, chat_id = some c ∧ str_isdigit c = true)) ∧
    send_telegram true (some "-1001234567") message = none ∧
    send_telegram true (some "") message = none ∧
    send_telegram true none message = none := by
  refine ⟨?_, rfl, rfl, rfl⟩
  cases bot with
  | false => simp [send_telegram]
  | true =>
      cases chat_id with
      | none => simp [send_telegram]
      | some c =>
          by_cases hcd : str_isdigit c = true
          · have hne : c.isEmpty = false := by
              cases he : c.isEmpty with
              | false => rfl
              | true => rw [str_isdigit, he] at hcd; simp at hcd
            simp [send_telegram, guard_eq_isdigit, hcd, hne]
          · simp [send_telegram, guard_eq_isdigit, hcd]

/-- C10: for a data row longer than the header, the submission's key set is
exactly the set of header names, a duplicated column name resolves to the
cell of its last occurrence (a later duplicate overwrites an earlier one),
and every stored value comes from a cell whose index is below the header
length — data beyond the header length is silently dropped. -/
theorem C10_long_row_truncated (headers row : List String)
    (h : headers.length < row.length) :
    (∀ name,
      ((dictGet (buildSubmission headers row) name).isSome = true ↔
        name ∈ headers)) ∧
    (∀ p, p < headers.length →
      (∀ q, p < q → q < headers.length →
        headers.getD q "" ≠ headers.getD p "") →
      dictGet (buildSubmission headers row) (headers.getD p "") =
        some (row.getD p "")) ∧
    (∀ name v, dictGet (buildSubmission headers row) name = some v →
      ∃ p, p < headers.length ∧ row.getD p "" = v) := by
  refine ⟨?_, ?_, ?_⟩
  · intro name
    have hk := buildSubAux_hasKey row name headers 0 []
    simpa [buildSubmission, dictGet] using hk
  · intro p hp hlast
    have hm := buildSubAux_get_last row headers 0 [] p hp hlast
    rw [buildSubmission, hm, Nat.zero_add]
  · intro name v hv
    rw [buildSubmission] at hv
    rcases buildSubAux_get_origin row name v headers 0 [] hv with
      ⟨p, hp, _, hval⟩ | habs
    · rw [Nat.zero_add] at hval
      exact ⟨p, hp, hval⟩
    · exact absurd habs (by simp [dictGet])

theorem C10_witness :
    (∀ name,
      ((dictGet (buildSubmission ["A", "B"] ["x", "y", "z"]) name).isSome =
          true ↔
        name ∈ (["A", "B"] : List String))) ∧
    (∀ p, p < (["A", "B"] : List String).length →
      (∀ q, p < q → q < (["A", "B"] : List String).length →
        (["A", "B"] : List String).getD q "" ≠
          (["A", "B"] : List String).getD p "") →
      dictGet (buildSubmission ["A", "B"] ["x", "y", "z"])
          ((["A", "B"] : List String).getD p "") =
        some ((["x", "y", "z"] : List String).getD p "")) ∧
    (∀ name v,
      dictGet (buildSubmission ["A", "B"] ["x", "y", "z"]) name = some v →
      ∃ p, p < (["A", "B"] : List String).length ∧
        (["x", "y", "z"] : List String).getD p "" = v) :=
  C10_long_row_truncated ["A", "B"] ["x", "y", "z"] (by decide)
